import Mathlib

/-!
# Verification of the ai-invest-agent arbitrage signal engine

Shallow embedding of the decision logic of the repository
(`src/common/calc.py`, `src/jobs/watchlist_job.py`, `main.py`) and proofs
of the specified properties.

Modelling conventions:
* Python floats are modelled by `ℚ` (the claims concern control flow and
  exact algebraic identities, not rounding).
* Python `datetime` values are modelled by `PyDateTime` (calendar day plus
  seconds within the day); `datetime.replace(microsecond=0)` floors the
  sub-second part of the seconds field.
* `Optional[float]` becomes `Option ℚ`; Python falsiness of a float is
  "`None` or `0`".
* External collaborators (the IOL quote source, the Yahoo price source,
  the spreadsheet store) are inputs: functions and lists inside a `World`
  structure.  Cells already go through `parse_iso` / `safe_float` in the
  source, so a value that is absent or fails to parse is modelled as
  `none`.
* An exception raised by the Python code is modelled as a `PyError`
  result; in particular the watch-list tick references the undefined
  names `bid_qty_i` / `ask_qty_i` on its alert path
  (`watchlist_job.py:449`), which raises `NameError` there.
-/

/-- Floor of a rational, in executable form (`Int.fdiv` of numerator by
denominator); `ratFloor_eq` identifies it with `⌊⋅⌋`. -/
def ratFloor (q : ℚ) : ℤ :=
  Int.fdiv q.num q.den

/-- Ceiling of a rational, in executable form; `ratCeil_eq` identifies it
with `⌈⋅⌉` (Python `math.ceil`). -/
def ratCeil (q : ℚ) : ℤ :=
  - ratFloor (-q)

/-- Python `datetime`: calendar day and seconds elapsed within the day
(fractional part = sub-second part). -/
structure PyDateTime where
  day : ℤ
  tod : ℚ
  deriving DecidableEq, Repr

/-- Chronological value in seconds, used for datetime subtraction
(`(a - b).total_seconds()` = `a.totalSeconds - b.totalSeconds`). -/
def PyDateTime.totalSeconds (d : PyDateTime) : ℚ :=
  86400 * (d.day : ℚ) + d.tod

/-- `dt.replace(hour=h, minute=m, second=0, microsecond=0)`. -/
def PyDateTime.replaceHM (d : PyDateTime) (h m : ℕ) : PyDateTime :=
  ⟨d.day, (h : ℚ) * 3600 + (m : ℚ) * 60⟩

/-- `dt.replace(microsecond=0)` (used when serialising the alert-state
timestamp): floors the sub-second part. -/
def PyDateTime.truncMicro (d : PyDateTime) : PyDateTime :=
  ⟨d.day, (ratFloor d.tod : ℚ)⟩

/-- Python falsiness of an `Optional[float]`: `None` or `0.0`. -/
def optFalsy (x : Option ℚ) : Bool :=
  match x with
  | none => true
  | some v => decide (v = 0)

/-- Python `int(x)` on a float: truncation toward zero. -/
def pyTrunc (q : ℚ) : ℤ :=
  if 0 ≤ q then ratFloor q else ratCeil q

/-- Python `str.upper()` (over the character sequence). -/
def pyUpper (s : String) : String :=
  ⟨s.data.map Char.toUpper⟩

/-- Python `str.strip()`: drop whitespace from both ends. -/
def pyStrip (s : String) : String :=
  ⟨((s.data.dropWhile Char.isWhitespace).reverse.dropWhile Char.isWhitespace).reverse⟩

/-! ## `src/common/calc.py` -/

/-- `calc.ccl_implicit` — the implied-rate calculator.  Arguments are
`Option` so that a missing (`None`) input is representable; Python's
`not x` guard fires on `None` and on `0`, then the sign guard on the
foreign price and the ratio, and only then the division. -/
def ccl_implicit (cedear_ars stock_usd ratio : Option ℚ) : Option ℚ :=
  match cedear_ars, stock_usd, ratio with
  | some c, some s, some r =>
      if c = 0 ∨ s = 0 ∨ r = 0 then none
      else if s ≤ 0 ∨ r ≤ 0 then none
      else some (c * r / s)
  | _, _, _ => none

/-- Result record of `calc.edges_intuitive`. -/
structure EdgesPack where
  usd_cedear_ask : ℚ
  usd_cedear_bid : ℚ
  usd_stock_per_cedear : ℚ
  edge_buy_gross : ℚ
  edge_sell_gross : ℚ
  fee_buy_usd_rt : ℚ
  fee_sell_usd_rt : ℚ
  edge_buy_net : ℚ
  edge_sell_net : ℚ
  deriving DecidableEq, Repr

/-- `calc.edges_intuitive` — the per-direction edge calculator used by the
watch-list job.  Note: the net fields are `gross - fee` with no floor at
zero.  (Python would raise on `ratio = 0`; every caller substitutes
`ratio = 1` for a falsy ratio cell, see `ratioOf`.) -/
def edges_intuitive (bid_ars ask_ars stock_usd ratio ccl_mkt fee_pct_per_tx : ℚ) :
    Option EdgesPack :=
  if ccl_mkt = 0 ∨ ccl_mkt ≤ 0 then none
  else
    let usd_ask := ask_ars / ccl_mkt
    let usd_bid := bid_ars / ccl_mkt
    let usd_stock := stock_usd / ratio
    let edge_buy_gross := usd_stock - usd_ask
    let edge_sell_gross := usd_bid - usd_stock
    let fee_buy := usd_ask * ((2 * fee_pct_per_tx) / 100)
    let fee_sell := usd_bid * ((2 * fee_pct_per_tx) / 100)
    some ⟨usd_ask, usd_bid, usd_stock, edge_buy_gross, edge_sell_gross,
      fee_buy, fee_sell, edge_buy_gross - fee_buy, edge_sell_gross - fee_sell⟩

/-! ## `main.py` edge functions -/

/-- `main.edge_usd_per_cedear`. -/
def edge_usd_per_cedear (cedear_ars ccl_market ccl_impl : ℚ) : Option ℚ :=
  if ccl_market = 0 ∨ ccl_market ≤ 0 ∨ ccl_impl = 0 ∨ ccl_impl ≤ 0 then none
  else some (cedear_ars / ccl_impl - cedear_ars / ccl_market)

/-- `main.usd_at_ccl_mkt`. -/
def usd_at_ccl_mkt (cedear_ars ccl_market : ℚ) : Option ℚ :=
  if cedear_ars = 0 ∨ ccl_market = 0 ∨ ccl_market ≤ 0 then none
  else some (cedear_ars / ccl_market)

/-- `main.edge_net_usd_per_cedear`: returns
`(edge_gross_abs, fee_usd_roundtrip, edge_net)` with
`edge_net = max(|gross| - fees, 0)`. -/
def edge_net_usd_per_cedear (cedear_ars ccl_market ccl_impl fee_pct_per_tx : ℚ) :
    Option (ℚ × ℚ × ℚ) :=
  match edge_usd_per_cedear cedear_ars ccl_market ccl_impl with
  | none => none
  | some gross =>
    match usd_at_ccl_mkt cedear_ars ccl_market with
    | none => none
    | some usd_mkt =>
      let fee_usd := usd_mkt * ((2 * fee_pct_per_tx) / 100)
      some (|gross|, fee_usd, max (|gross| - fee_usd) 0)

/-! ## `src/jobs/watchlist_job.py` — configuration -/

/-- One allowed session window `(start_hour, start_min, end_hour, end_min)`. -/
structure Window where
  sh : ℕ
  sm : ℕ
  eh : ℕ
  em : ℕ
  deriving DecidableEq, Repr

/-- The environment-configurable knobs of the watch-list job (module-level
constants read from `os.environ` with defaults). -/
structure Config where
  watch_min_diff_pct : ℚ
  watch_min_net_usd : ℚ
  adr_max_abs_5m_pct : ℚ
  target_usd : ℚ
  min_monto_operado_ars : ℚ
  plazo_target : String
  alert_cooldown_min : ℚ
  alert_edge_improve_usd : ℚ
  window_guard : Bool
  windows : List Window
  broker_fee_pct : ℚ
  flag_strong_edge_usd : ℚ
  flag_strong_diff_pct : ℚ
  flag_ultra_edge_usd : ℚ
  flag_ultra_diff_pct : ℚ

/-- The defaults hard-coded in `watchlist_job.py` (env vars unset). -/
def defaultConfig : Config where
  watch_min_diff_pct := 2
  watch_min_net_usd := 1/2
  adr_max_abs_5m_pct := 1/4
  target_usd := 500
  min_monto_operado_ars := 50000000
  plazo_target := "T1"
  alert_cooldown_min := 20
  alert_edge_improve_usd := 1/20
  window_guard := true
  windows := [⟨11, 0, 13, 0⟩, ⟨16, 0, 17, 0⟩]
  broker_fee_pct := 1/2
  flag_strong_edge_usd := 4/5
  flag_strong_diff_pct := 3
  flag_ultra_edge_usd := 3/2
  flag_ultra_diff_pct := 4

/-! ## Time helpers (`watchlist_job.py` TIME section) -/

/-- `in_allowed_window`: the current datetime lies inside one of the
configured windows; `start`/`end` are the same calendar day with the
window's hour/minute substituted, compared chronologically
(`start <= dt <= end`, both ends inclusive). -/
def in_allowed_window (ws : List Window) (dt : PyDateTime) : Bool :=
  ws.any fun w =>
    decide ((dt.replaceHM w.sh w.sm).totalSeconds ≤ dt.totalSeconds) &&
    decide (dt.totalSeconds ≤ (dt.replaceHM w.eh w.em).totalSeconds)

/-! ## Sizing and liquidity (`watchlist_job.py` UTILS) -/

/-- `required_cedears_for_target_usd`: lots needed for the target notional,
priced on the leg that exits the position (`bid_d` when the entry side is
`COMPRA`, `ask_d` otherwise); `None` when that price is missing, zero or
negative. -/
def required_cedears_for_target_usd (target_usd : ℚ) (bid_d ask_d : Option ℚ)
    (side : String) : Option ℤ :=
  let usd_per_cedear := if side = "COMPRA" then bid_d else ask_d
  match usd_per_cedear with
  | none => none
  | some u => if u = 0 ∨ u ≤ 0 then none else some (ratCeil (target_usd / u))

/-- `min_qty_thresholds_for_target`: scaled minimum book depth
`(min_ars, min_d)` — twice the required lots, floored at 50 / 20. -/
def min_qty_thresholds_for_target (n : ℤ) : ℤ × ℤ :=
  if n = 0 ∨ n ≤ 0 then (50, 20)
  else (max 50 (2 * n), max 20 (2 * n))

/-- `is_executable_for_size`: the side that must be hit on each leg covers
the required lots (ARS ask and dollar bid when buying, ARS bid and dollar
ask when selling). -/
def is_executable_for_size (n bid_qty_ars ask_qty_ars bid_qty_d ask_qty_d : ℤ)
    (side : String) : Bool :=
  if n = 0 ∨ n ≤ 0 then false
  else if side = "COMPRA" then
    decide (ask_qty_ars ≥ n) && decide (bid_qty_d ≥ n)
  else
    decide (bid_qty_ars ≥ n) && decide (ask_qty_d ≥ n)

/-- The composite liquidity filter exactly as applied by the tick
(`watchlist_job.py:415-427`): required lots (falsy → skip), scaled
book-depth minimum on all four sides, then side-specific executability. -/
def liquidity_filter (target_usd : ℚ) (bid_d ask_d : Option ℚ) (side : String)
    (bid_qty ask_qty bid_qty_d ask_qty_d : ℤ) : Bool :=
  match required_cedears_for_target_usd target_usd bid_d ask_d side with
  | none => false
  | some n =>
    if n = 0 then false
    else
      let mins := min_qty_thresholds_for_target n
      if bid_qty < mins.1 ∨ ask_qty < mins.1 then false
      else if bid_qty_d < mins.2 ∨ ask_qty_d < mins.2 then false
      else is_executable_for_size n bid_qty ask_qty bid_qty_d ask_qty_d side

/-- `side_for_direction`. -/
def side_for_direction (arb_side : String) : String :=
  if arb_side = "barato en ARS / caro en D" then "COMPRA" else "VENTA"

/-- `guess_d_symbol`. -/
def guess_d_symbol (sym : String) : String :=
  sym ++ "D"

/-- `has_ultra_liquidity`: book holds four times the target size on all
four sides. -/
def has_ultra_liquidity (n bid_qty_ars ask_qty_ars bid_qty_d ask_qty_d : ℤ) : Bool :=
  if n = 0 ∨ n ≤ 0 then false
  else
    decide (bid_qty_ars ≥ 4 * n) && decide (ask_qty_ars ≥ 4 * n) &&
    decide (bid_qty_d ≥ 4 * n) && decide (ask_qty_d ≥ 4 * n)

/-- `opportunity_flag`: severity tier (advisory label). -/
def opportunity_flag (cfg : Config) (edge_net diff_pct : ℚ)
    (n_cedears bid_qty_ars ask_qty_ars bid_qty_d ask_qty_d : ℤ) : String :=
  if edge_net ≥ cfg.flag_ultra_edge_usd ∧ |diff_pct| ≥ cfg.flag_ultra_diff_pct ∧
      has_ultra_liquidity n_cedears bid_qty_ars ask_qty_ars bid_qty_d ask_qty_d then
    "🔥 ULTRA"
  else if edge_net ≥ cfg.flag_strong_edge_usd ∨ |diff_pct| ≥ cfg.flag_strong_diff_pct then
    "🟢 STRONG"
  else
    "🟡 MEDIUM"

/-! ## Reference rate (`watchlist_job.py` FX REF section) -/

/-- An IOL quote after `parse_iol_quote` (`src/common/iol.py`): every field
is the result of `_safe_float` (or the raw `plazo` string), so a missing
or unparseable value is `none`. -/
structure ParsedQuote where
  last : Option ℚ
  bid : Option ℚ
  ask : Option ℚ
  bid_qty : Option ℚ
  ask_qty : Option ℚ
  plazo : Option String
  montoOperado : Option ℚ
  deriving DecidableEq, Repr

/-- `pick_mark_or_last`: midpoint of the book when both sides quote,
otherwise the last trade. -/
def pick_mark_or_last (pq : ParsedQuote) : Option ℚ :=
  match pq.bid, pq.ask with
  | some b, some a => some ((b + a) / 2)
  | _, _ => pq.last

/-- `get_mep_ref`: the AL30/AL30D reference rate.  `None` when either leg
is unavailable, either leg's settlement term differs from the target,
either mark is falsy, or the dollar-leg mark is negative.  (The peso-leg
mark is only checked for falsiness, not for sign.) -/
def get_mep_ref (quotes : String → Option ParsedQuote) (plazo_target : String) :
    Option ℚ :=
  match quotes ("AL30"), quotes ("AL30D") with
  | some p_ars, some p_usd =>
    if p_ars.plazo ≠ some plazo_target ∨ p_usd.plazo ≠ some plazo_target then none
    else
      match pick_mark_or_last p_ars, pick_mark_or_last p_usd with
      | some al30_ars, some al30d_usd =>
          if al30_ars = 0 ∨ al30d_usd = 0 ∨ al30d_usd ≤ 0 then none
          else some (al30_ars / al30d_usd)
      | _, _ => none
  | _, _ => none

/-! ## Dedup/cooldown state (`watchlist_job.py` DEDUPE STATE section) -/

/-- One raw row of the `watchlist_alert_state` worksheet.  String cells
default to `""` when absent; `last_sent_at` is the result of `parse_iso`
(so `none` covers both a blank cell and a string that is not ISO format)
and `last_edge_net` the result of `safe_float`. -/
structure StateRow where
  ticker : String
  last_side : String
  last_sent_at : Option PyDateTime
  last_edge_net : Option ℚ
  deriving DecidableEq, Repr

/-- An entry of the in-memory alert-state dict built by `load_alert_state`. -/
structure StateEntry where
  last_side : String
  last_sent_at : Option PyDateTime
  last_edge_net : Option ℚ
  row_index : ℕ
  deriving DecidableEq, Repr

/-- The in-memory state: insertion-ordered key/value pairs with unique
keys (a Python dict). -/
abbrev StateMap : Type := List (String × StateEntry)

/-- Python dict assignment `state[t] = v`: overwrite in place if the key
exists, else append. -/
def dictInsert (m : StateMap) (k : String) (v : StateEntry) : StateMap :=
  if (List.any m fun p => p.1 = k) then
    List.map (fun p => if p.1 = k then (k, v) else p) m
  else m ++ [(k, v)]

/-- Dict lookup `state.get(t)`. -/
def lookupState (m : StateMap) (t : String) : Option StateEntry :=
  (List.find? (fun p => p.1 = t) m).map Prod.snd

/-- Normalised ticker of a sheet row: `(r.get("ticker") or "").strip().upper()`. -/
def normT (r : StateRow) : String :=
  pyUpper (pyStrip r.ticker)

/-- The dict entry built from sheet row `r` at sheet row number `i`:
normalised direction, parsed timestamp and edge, and the row number. -/
def entryOfRow (i : ℕ) (r : StateRow) : StateEntry :=
  ⟨pyUpper (pyStrip r.last_side), r.last_sent_at, r.last_edge_net, i⟩

/-- Body of `load_alert_state`, enumerating rows from sheet row index 2. -/
def loadAux : ℕ → List StateRow → StateMap → StateMap
  | _, [], acc => acc
  | idx, r :: rs, acc =>
    if normT r = "" then loadAux (idx + 1) rs acc
    else loadAux (idx + 1) rs (dictInsert acc (normT r) (entryOfRow idx r))

/-- `load_alert_state`: read the whole state sheet into a dict keyed by
normalised ticker (rows with a blank ticker are skipped; a later row with
the same ticker overwrites an earlier one). -/
def load_alert_state (rows : List StateRow) : StateMap :=
  loadAux 2 rows []

/-- `should_send_alert`: the dedup/cooldown decision.  Emits when there is
no stored state, the stored direction is non-blank and differs, the stored
timestamp is missing, the cooldown has elapsed, the stored edge is
missing, or the edge improved by at least the configured margin. -/
def should_send_alert (cfg : Config) (state : StateMap) (ticker side : String)
    (edge_net : ℚ) (now_dt : PyDateTime) : Bool :=
  let t := pyUpper ticker
  let sideU := pyUpper side
  match lookupState state t with
  | none => true
  | some prev =>
    let prev_side := pyUpper prev.last_side
    if prev_side ≠ "" ∧ prev_side ≠ sideU then true
    else
      match prev.last_sent_at with
      | none => true
      | some prev_time =>
        let minutes := (now_dt.totalSeconds - prev_time.totalSeconds) / 60
        if minutes ≥ cfg.alert_cooldown_min then true
        else
          match prev.last_edge_net with
          | none => true
          | some prev_edge =>
            if edge_net - prev_edge ≥ cfg.alert_edge_improve_usd then true
            else false

/-- `upsert_alert_state`: write `[t, side, iso, edge_net]` over the row the
loaded dict recorded for `t` (sheet row `row_index` = list position
`row_index - 2`), or append a new row when `t` is not a key.  The stored
timestamp is `now_dt.replace(microsecond=0)` serialised to ISO (which
`parse_iso` reads back unchanged). -/
def upsert_alert_state (state : StateMap) (sheet : List StateRow)
    (ticker side : String) (edge_net : ℚ) (now_dt : PyDateTime) : List StateRow :=
  let t := pyUpper ticker
  let sideU := pyUpper side
  let newRow : StateRow := ⟨t, sideU, some now_dt.truncMicro, some edge_net⟩
  match lookupState state t with
  | some e => sheet.set (e.row_index - 2) newRow
  | none => sheet ++ [newRow]

/-! ## The tick (`watchlist_job.main`) -/

/-- A Python exception escaping the tick. -/
inductive PyError where
  | nameError (v : String)
  | runtimeError
  deriving DecidableEq, Repr

/-- One row of the `watchlist` sheet as the loop reads it: string cells
default to `""`, the ratio cell goes through `safe_float`. -/
structure WatchRow where
  ticker : String
  tipo : String
  ratio : Option ℚ
  ticker_d : String
  deriving DecidableEq, Repr

/-- `safe_float(w.get("ratio")) or 1.0`: a missing or zero ratio cell
falls back to `1.0`. -/
def ratioOf (x : Option ℚ) : ℚ :=
  match x with
  | none => 1
  | some v => if v = 0 then 1 else v

/-- Everything the tick observes from outside: the clock, credentials,
the two worksheets, the IOL quote source (symbol → parsed quote or
unavailable) and the Yahoo price/5-minute-change source. -/
structure World where
  now : PyDateTime
  hasCreds : Bool
  stateRows : List StateRow
  watchlist : List WatchRow
  quotes : String → Option ParsedQuote
  yahooPrice : String → Option ℚ
  yahooChg : String → Option ℚ

/-- The reason a watch-list instrument is skipped (`continue`) for the
tick, one per `continue` site of the loop body. -/
inductive SkipReason where
  | notCedear
  | noQuoteArs
  | plazoArsMismatch
  | noBidAsk
  | lowMonto
  | noQuoteD
  | plazoDMismatch
  | noBidAskD
  | noYahoo
  | stability
  | cclInvalid
  | packNone
  | equalMarks
  | sizeNone
  | bookArsThin
  | bookDThin
  | notExecutable
  | diffTooSmall
  | edgeTooSmall
  deriving DecidableEq, Repr

/-- Outcome of one instrument's loop-body evaluation: the body either
`continue`s or raises (the alert path references the undefined name
`bid_qty_i`, so no instrument ever completes the body normally). -/
inductive StepRes where
  | skip (r : SkipReason)
  | crash (e : PyError)
  deriving DecidableEq, Repr

/-- The data in scope once an instrument has survived every filter that
precedes the stability check (`watchlist_job.py:326-374`). -/
structure PreData where
  ticker : String
  ratio : ℚ
  bid : ℚ
  ask : ℚ
  bid_qty : ℤ
  ask_qty : ℤ
  montoOperado : Option ℚ
  bid_d : ℚ
  ask_d : ℚ
  bid_qty_d : ℤ
  ask_qty_d : ℤ
  stock_usd : ℚ
  adr_5m : ℚ
  deriving DecidableEq, Repr

/-- `monto_ars is not None and monto_ars < MIN_MONTO_OPERADO_ARS`. -/
def montoTooLow (monto : Option ℚ) (minMonto : ℚ) : Bool :=
  match monto with
  | some m => decide (m < minMonto)
  | none => false

/-- Loop body up to (not including) the stability check
(`watchlist_job.py:326-376`): normalise the row, fetch and filter the
peso quote, fetch and filter the dollar quote, fetch the Yahoo data.
Returns the IOL symbols fetched together with either a skip reason or the
collected data. -/
def fetchAndFilter (cfg : Config) (w : World) (row : WatchRow) :
    List String × Except SkipReason PreData :=
  let ticker := pyUpper (pyStrip row.ticker)
  let tipo := pyStrip (pyUpper row.tipo)
  let ratio := ratioOf row.ratio
  if ticker = "" ∨ tipo ≠ "CEDEAR" then ([], .error .notCedear)
  else
    match w.quotes ticker with
    | none => ([ticker], .error .noQuoteArs)
    | some p_ars =>
      let bid_qty := pyTrunc ((p_ars.bid_qty).getD 0)
      let ask_qty := pyTrunc ((p_ars.ask_qty).getD 0)
      if p_ars.plazo ≠ some cfg.plazo_target then ([ticker], .error .plazoArsMismatch)
      else
        match p_ars.bid, p_ars.ask with
        | some bid, some ask =>
          if montoTooLow p_ars.montoOperado cfg.min_monto_operado_ars then
            ([ticker], .error .lowMonto)
          else
            let ticker_d := pyUpper (pyStrip row.ticker_d)
            let sym_d := if ticker_d = "" then guess_d_symbol ticker else ticker_d
            match w.quotes sym_d with
            | none => ([ticker, sym_d], .error .noQuoteD)
            | some p_d =>
              let bid_qty_d := pyTrunc ((p_d.bid_qty).getD 0)
              let ask_qty_d := pyTrunc ((p_d.ask_qty).getD 0)
              if p_d.plazo ≠ some cfg.plazo_target then
                ([ticker, sym_d], .error .plazoDMismatch)
              else
                match p_d.bid, p_d.ask with
                | some bid_d, some ask_d =>
                  match w.yahooPrice ticker, w.yahooChg ticker with
                  | some stock_usd, some adr_5m =>
                    ([ticker, sym_d], .ok ⟨ticker, ratio, bid, ask, bid_qty, ask_qty,
                      p_ars.montoOperado, bid_d, ask_d, bid_qty_d, ask_qty_d,
                      stock_usd, adr_5m⟩)
                  | _, _ => ([ticker, sym_d], .error .noYahoo)
                | _, _ => ([ticker, sym_d], .error .noBidAskD)
        | _, _ => ([ticker], .error .noBidAsk)

/-- Loop body after the stability check (`watchlist_job.py:381-453`):
implied rates, deviations, edges, direction, sizing, liquidity and
threshold filters.  An instrument that survives every filter reaches the
severity-classification call, whose argument `bid_qty_i` is an undefined
name — the body raises `NameError` there instead of emitting. -/
def postStability (cfg : Config) (mep : ℚ) (d : PreData) : StepRes :=
  let ccl_buy := ccl_implicit (some d.ask) (some d.stock_usd) (some d.ratio)
  let ccl_sell := ccl_implicit (some d.bid) (some d.stock_usd) (some d.ratio)
  if optFalsy ccl_buy || optFalsy ccl_sell then .skip .cclInvalid
  else
    match ccl_buy, ccl_sell with
    | some cb, some cs =>
      let diff_buy := (cb - mep) / mep * 100
      let diff_sell := (cs - mep) / mep * 100
      match edges_intuitive d.bid d.ask d.stock_usd d.ratio mep cfg.broker_fee_pct with
      | none => .skip .packNone
      | some pack =>
        let usd_per_cedear_ars := (d.bid + d.ask) / 2 / mep
        let usd_per_cedear_d := (d.bid_d + d.ask_d) / 2
        if usd_per_cedear_ars = usd_per_cedear_d then .skip .equalMarks
        else
          let arb_side := if usd_per_cedear_ars < usd_per_cedear_d then
            "barato en ARS / caro en D" else "caro en ARS / barato en D"
          let recommended_side := side_for_direction arb_side
          match required_cedears_for_target_usd cfg.target_usd (some d.bid_d)
              (some d.ask_d) recommended_side with
          | none => .skip .sizeNone
          | some n =>
            if n = 0 then .skip .sizeNone
            else
              let mins := min_qty_thresholds_for_target n
              if d.bid_qty < mins.1 ∨ d.ask_qty < mins.1 then .skip .bookArsThin
              else if d.bid_qty_d < mins.2 ∨ d.ask_qty_d < mins.2 then .skip .bookDThin
              else if ¬ is_executable_for_size n d.bid_qty d.ask_qty d.bid_qty_d
                  d.ask_qty_d recommended_side then .skip .notExecutable
              else
                let diff_pct := if recommended_side = "COMPRA" then diff_buy else diff_sell
                let edge_net := if recommended_side = "COMPRA" then pack.edge_buy_net
                  else pack.edge_sell_net
                if |diff_pct| < cfg.watch_min_diff_pct then .skip .diffTooSmall
                else if edge_net < cfg.watch_min_net_usd then .skip .edgeTooSmall
                else .crash (.nameError ("bid_qty_i"))
    | _, _ => .skip .cclInvalid

/-- One instrument's loop-body evaluation: pre-stability filters, the
stability filter, then the rest. -/
def processInstrument (cfg : Config) (w : World) (mep : ℚ) (row : WatchRow) :
    List String × StepRes :=
  let pre := fetchAndFilter cfg w row
  match pre.2 with
  | .error r => (pre.1, .skip r)
  | .ok d =>
    if |d.adr_5m| > cfg.adr_max_abs_5m_pct then (pre.1, .skip .stability)
    else (pre.1, postStability cfg mep d)

deriving instance DecidableEq for Except

/-- One state-sheet write performed at the end of a tick (the argument
tuple of an `upsert_alert_state` call). -/
structure StateOp where
  ticker : String
  side : String
  sentAt : PyDateTime
  edge : ℚ
  deriving DecidableEq, Repr

/-- The externally observable behaviour of one tick. -/
structure TickOutcome where
  error : Option PyError
  fetched : List String
  histAppends : ℕ
  telegramSent : Bool
  stateOps : List StateOp
  deriving DecidableEq, Repr

/-- The outcome of a tick that touches nothing. -/
def noopOutcome : TickOutcome :=
  ⟨none, [], 0, false, []⟩

/-- The instrument loop (`watchlist_job.py:325-482`) followed by the
post-loop commit (`484-508`).  Because every instrument's body either
`continue`s or raises before any append, `alerts_to_send` is empty
whenever the loop completes, and the post-loop code then returns with no
writes (`if not alerts_to_send: return`). -/
def tickLoop (cfg : Config) (w : World) (mep : ℚ) :
    List WatchRow → List String → TickOutcome
  | [], fs => ⟨none, fs, 0, false, []⟩
  | row :: rest, fs =>
    match processInstrument cfg w mep row with
    | (f, .skip _) => tickLoop cfg w mep rest (fs ++ f)
    | (f, .crash e) => ⟨some e, fs ++ f, 0, false, []⟩

/-- `watchlist_job.main`, one tick: window guard, state load, credential
check, reference rate (fail-fast when falsy), then the instrument loop.
(`connect_sheets` / `ensure_worksheet` are sheet plumbing with no audit
or state rows.) -/
def runTick (cfg : Config) (w : World) : TickOutcome :=
  if cfg.window_guard && ! in_allowed_window cfg.windows w.now then noopOutcome
  else
    let _state := load_alert_state w.stateRows
    if ! w.hasCreds then { noopOutcome with error := some .runtimeError }
    else
      match get_mep_ref w.quotes cfg.plazo_target with
      | none => ⟨none, ["AL30", "AL30D"], 0, false, []⟩
      | some mep =>
        if mep = 0 then ⟨none, ["AL30", "AL30D"], 0, false, []⟩
        else tickLoop cfg w mep w.watchlist ["AL30", "AL30D"]

/-! ## The commit protocol (`watchlist_job.py:472-482` and `506-508`)

The values `(ticker, recommended_side, edge_net)` appended to
`pending_state_updates` for instruments that pass every filter and the
dedup decision, and the `upsert_alert_state` calls executed after the
Telegram send.  (On the shipped code this block is unreachable — the
classification call raises first, see `postStability` — so it is embedded
here parameterised by the qualifying opportunities the loop would
supply.) -/

/-- A qualifying opportunity as it stands at `watchlist_job.py:473`:
normalised ticker, recommended side, selected net edge. -/
structure Qual where
  ticker : String
  side : String
  edge : ℚ
  deriving DecidableEq, Repr

/-- The dedup decision applied to a qualifying opportunity. -/
def emitQ (cfg : Config) (state : StateMap) (now : PyDateTime) (q : Qual) : Bool :=
  should_send_alert cfg state q.ticker q.side q.edge now

/-- The state-sheet write an emitted opportunity produces: the new
`(direction, timestamp, edge)` tuple, with the timestamp truncated to
whole seconds (`now.replace(microsecond=0)`). -/
def upsertOp (now : PyDateTime) (q : Qual) : StateOp :=
  ⟨pyUpper q.ticker, pyUpper q.side, now.truncMicro, q.edge⟩

/-- The list of state writes a tick performs: one per opportunity that
passes the dedup decision, none at all when no alert fires. -/
def commitOps (cfg : Config) (state : StateMap) (now : PyDateTime)
    (quals : List Qual) : List StateOp :=
  let pending := quals.filter (emitQ cfg state now)
  if pending.isEmpty then [] else pending.map (upsertOp now)

/-- The state sheet after the tick: each pending update is upserted in
order, against the dict loaded at tick start. -/
def commitSheet (cfg : Config) (sheet : List StateRow) (now : PyDateTime)
    (quals : List Qual) : List StateRow :=
  let state := load_alert_state sheet
  (quals.filter (emitQ cfg state now)).foldl
    (fun sh q => upsert_alert_state state sh q.ticker q.side q.edge now) sheet

/-- First sheet row whose normalised ticker equals `t`, with its
position. -/
def findRowAux (t : String) : ℕ → List StateRow → Option (ℕ × StateRow)
  | _, [] => none
  | i, r :: rs => if normT r = t then some (i, r) else findRowAux t (i + 1) rs

/-- First sheet row whose normalised ticker equals `t` (what the next
tick's `load_alert_state` keys on, given unique tickers). -/
def findRow (l : List StateRow) (t : String) : Option (ℕ × StateRow) :=
  findRowAux t 0 l

/-- The cross-tick content of a stored row: direction, timestamp, edge. -/
def rowContent (x : Option (ℕ × StateRow)) : Option (String × Option PyDateTime × Option ℚ) :=
  x.map fun p => (p.2.last_side, p.2.last_sent_at, p.2.last_edge_net)

/-- The sheet row an emitted opportunity writes
(`[t, side, iso, edge_net]`). -/
def qualRow (now : PyDateTime) (q : Qual) : StateRow :=
  ⟨pyUpper q.ticker, pyUpper q.side, some now.truncMicro, some q.edge⟩

/-! ## Concrete scenarios used by the witnesses and counterexamples -/

/-- AL30 peso-leg quote: mark 60000, settlement T1. -/
def qAL30 : ParsedQuote :=
  ⟨some 60000, some 59000, some 61000, some 100, some 100, some "T1", none⟩

/-- AL30D dollar-leg quote: mark 60, settlement T1 (reference rate 1000). -/
def qAL30D : ParsedQuote :=
  ⟨some 60, some 59, some 61, some 100, some 100, some "T1", none⟩

/-- A CEDEAR quote deep and cheap in pesos: bid 4000 / ask 4100, T1,
1000 lots each side, 60M pesos traded. -/
def qGGAL : ParsedQuote :=
  ⟨some 4050, some 4000, some 4100, some 1000, some 1000, some "T1", some 60000000⟩

/-- The matching dollar-denominated listing: bid 4.95 / ask 5.05, T1. -/
def qGGALD : ParsedQuote :=
  ⟨some 5, some (99/20), some (101/20), some 1000, some 1000, some "T1", none⟩

/-- Quote table serving the two reference legs and the GGAL pair. -/
def demoQuotes : String → Option ParsedQuote := fun s =>
  if s = "AL30" then some qAL30
  else if s = "AL30D" then some qAL30D
  else if s = "GGAL" then some qGGAL
  else if s = "GGALD" then some qGGALD
  else none

/-- The GGAL watch-list row (ratio 10, dollar symbol guessed). -/
def ggalRow : WatchRow :=
  ⟨"GGAL", "CEDEAR", some 10, ""⟩

/-- A world in which GGAL passes every filter of the tick: in-window
clock (12:00), instrument 18% cheap in pesos, stable underlying, deep
books. -/
def crashWorld : World where
  now := ⟨0, 43200⟩
  hasCreds := true
  stateRows := []
  watchlist := [ggalRow]
  quotes := demoQuotes
  yahooPrice := fun s => if s = "GGAL" then some 50 else none
  yahooChg := fun s => if s = "GGAL" then some (1/10) else none

/-- Same world with the underlying moving 0.30% over five minutes. -/
def stabWorldA : World :=
  { crashWorld with yahooChg := fun s => if s = "GGAL" then some (3/10) else none }

/-- Same world with the underlying moving 0.20% over five minutes. -/
def stabWorldB : World :=
  { crashWorld with yahooChg := fun s => if s = "GGAL" then some (1/5) else none }

/-- Same world with the AL30 peso leg quoting a negative mark
(bid −6 / ask −4) while the dollar leg is valid: the reference rate
computes to −5. -/
def negLegWorld : World :=
  { crashWorld with quotes := fun s =>
      if s = "AL30" then some ⟨some (-5), some (-6), some (-4), some 100, some 100, some "T1", none⟩
      else if s = "AL30D" then some ⟨some 1, none, none, some 100, some 100, some "T1", none⟩
      else demoQuotes s }

/-- Same world with the AL30 peso leg unavailable: the reference rate is
invalid. -/
def mepNoneWorld : World :=
  { crashWorld with quotes := fun s => if s = "AL30" then none else demoQuotes s }

/-- Same world observed at 09:00, outside both session windows. -/
def outsideWorld : World :=
  { crashWorld with now := ⟨0, 32400⟩ }

/-- A stored alert state: AAPL alerted direction BUY at epoch midnight
with net edge 1.00 (sheet row 2). -/
def exampleState : StateMap :=
  [("AAPL", ⟨"BUY", some ⟨0, 0⟩, some 1, 2⟩)]

/-- The state sheet behind `exampleState`. -/
def exampleSheet : List StateRow :=
  [⟨"AAPL", "BUY", some ⟨0, 0⟩, some 1⟩]

/-- A qualifying AAPL opportunity one minute later with net edge 1.06. -/
def exampleQual : Qual :=
  ⟨"AAPL", "BUY", 53/50⟩

/-! # Theorems -/

/-- `ratFloor` is the mathematical floor. -/
theorem ratFloor_eq (q : ℚ) : ratFloor q = ⌊q⌋ := by
  rw [Rat.floor_def, ratFloor, Int.fdiv_eq_ediv _ (by positivity)]

/-- `ratCeil` is the mathematical ceiling (Python `math.ceil`). -/
theorem ratCeil_eq (q : ℚ) : ratCeil q = ⌈q⌉ := by
  rw [ratCeil, ratFloor_eq, ← Int.ceil_neg, neg_neg]

/-- C1 (amended).  The net-edge component of `edge_net_usd_per_cedear` is
floored at zero: it equals `max(gross − fee, 0)` and is never negative.
The `edge_buy_net` / `edge_sell_net` fields of `edges_intuitive` — the
values the watch-list tick compares against its alert threshold — are
instead the plain differences `gross − fee`, with no floor (see
`edges_intuitive_negative_net` for a negative instance). -/
theorem edges_net_formula :
    (∀ c m i f g fee n, edge_net_usd_per_cedear c m i f = some (g, fee, n) →
      n = max (g - fee) 0 ∧ 0 ≤ n) ∧
    (∀ b a s r m f p, r ≠ 0 → edges_intuitive b a s r m f = some p →
      p.edge_buy_net = p.edge_buy_gross - p.fee_buy_usd_rt ∧
      p.edge_sell_net = p.edge_sell_gross - p.fee_sell_usd_rt) := by
  constructor
  · intro c m i f g fee n h
    unfold edge_net_usd_per_cedear at h
    cases h1 : edge_usd_per_cedear c m i <;> rw [h1] at h
    · exact absurd h (by simp)
    · cases h2 : usd_at_ccl_mkt c m <;> rw [h2] at h
      · exact absurd h (by simp)
      · simp only [Option.some.injEq, Prod.mk.injEq] at h
        obtain ⟨hg, hfee, hn⟩ := h
        subst hg; subst hfee; subst hn
        exact ⟨rfl, le_max_right _ _⟩
  · intro b a s r m f p _ h
    unfold edges_intuitive at h
    split at h
    · exact absurd h (by simp)
    · simp only [Option.some.injEq] at h
      subst h
      exact ⟨rfl, rfl⟩

set_option maxRecDepth 8000 in
/-- Witness for `edges_net_formula` at a concrete quote
(peso price 100, reference rate 1000, implied rate 800, fee 0.5%/leg). -/
theorem edges_net_formula_witness :
    (3/125 : ℚ) = max ((1/40 : ℚ) - 1/1000) 0 ∧ (0 : ℚ) ≤ 3/125 :=
  edges_net_formula.1 100 1000 800 (1/2) (1/40) (1/1000) (3/125)
    (by with_unfolding_all decide)

/-- C1 counterexample.  At bid 100 / ask 200, underlying 100, ratio 1,
reference rate 1 and fee 0.5% per leg, `edges_intuitive` returns
`edge_buy_net = −102`, whereas `max(gross − fee, 0)` is `0`: the engine's
per-direction net edge is not floored at zero and is negative here. -/
theorem edges_intuitive_negative_net :
    (edges_intuitive 100 200 100 1 1 (1/2)).map EdgesPack.edge_buy_net =
      some (-102) ∧
    (edges_intuitive 100 200 100 1 1 (1/2)).map
      (fun p => max (p.edge_buy_gross - p.fee_buy_usd_rt) 0) = some 0 ∧
    (-102 : ℚ) ≠ 0 := by
  refine ⟨?_, ?_, by norm_num⟩ <;> with_unfolding_all decide

/-- C4 (amended).  `ccl_implicit` returns `local * ratio / foreign` for
positive present inputs and `None` when any input is missing, when the
local price is zero, or when the foreign price or the ratio is zero or
negative.  A *negative* local price, however, is not rejected: with
positive foreign price and ratio it returns the negative quotient (see
`ccl_implicit_negative_local`).  In the `None` cases the guards return
before the division is reached. -/
theorem ccl_implicit_spec :
    (∀ c s r : ℚ, 0 < c → 0 < s → 0 < r →
      ccl_implicit (some c) (some s) (some r) = some (c * r / s)) ∧
    (∀ s r, ccl_implicit none s r = none) ∧
    (∀ c r, ccl_implicit c none r = none) ∧
    (∀ c s, ccl_implicit c s none = none) ∧
    (∀ s r, ccl_implicit (some 0) s r = none) ∧
    (∀ c s r : ℚ, s ≤ 0 → ccl_implicit (some c) (some s) (some r) = none) ∧
    (∀ c s r : ℚ, r ≤ 0 → ccl_implicit (some c) (some s) (some r) = none) ∧
    (∀ c s r : ℚ, c < 0 → 0 < s → 0 < r →
      ccl_implicit (some c) (some s) (some r) = some (c * r / s)) := by
  refine ⟨?_, ?_, ?_, ?_, ?_, ?_, ?_, ?_⟩
  · intro c s r hc hs hr
    show (if c = 0 ∨ s = 0 ∨ r = 0 then none
      else if s ≤ 0 ∨ r ≤ 0 then none else some (c * r / s)) = some (c * r / s)
    rw [if_neg (by push_neg; exact ⟨hc.ne', hs.ne', hr.ne'⟩),
        if_neg (by push_neg; exact ⟨hs, hr⟩)]
  · intro s r; cases s <;> cases r <;> rfl
  · intro c r; cases c <;> cases r <;> rfl
  · intro c s; cases c <;> cases s <;> rfl
  · intro s r
    cases s <;> cases r <;> simp [ccl_implicit]
  · intro c s r hs
    show (if c = 0 ∨ s = 0 ∨ r = 0 then none
      else if s ≤ 0 ∨ r ≤ 0 then none else some (c * r / s)) = none
    by_cases h1 : c = 0 ∨ s = 0 ∨ r = 0
    · rw [if_pos h1]
    · rw [if_neg h1, if_pos (Or.inl hs)]
  · intro c s r hr
    show (if c = 0 ∨ s = 0 ∨ r = 0 then none
      else if s ≤ 0 ∨ r ≤ 0 then none else some (c * r / s)) = none
    by_cases h1 : c = 0 ∨ s = 0 ∨ r = 0
    · rw [if_pos h1]
    · rw [if_neg h1, if_pos (Or.inr hr)]
  · intro c s r hc hs hr
    show (if c = 0 ∨ s = 0 ∨ r = 0 then none
      else if s ≤ 0 ∨ r ≤ 0 then none else some (c * r / s)) = some (c * r / s)
    rw [if_neg (by push_neg; exact ⟨hc.ne, hs.ne', hr.ne'⟩),
        if_neg (by push_neg; exact ⟨hs, hr⟩)]

/-- Witness for `ccl_implicit_spec`: peso price 100, underlying 5,
ratio 2 gives the implied rate 40. -/
theorem ccl_implicit_spec_witness :
    ccl_implicit (some 100) (some 5) (some 2) = some (100 * 2 / 5) :=
  ccl_implicit_spec.1 100 5 2 (by norm_num) (by norm_num) (by norm_num)

/-- C4 counterexample.  A negative local price with valid foreign price
and ratio is not reported invalid: `ccl_implicit(−100, 5, 2)` returns
`−40`, not `None`. -/
theorem ccl_implicit_negative_local :
    ccl_implicit (some (-100)) (some 5) (some 2) = some (-40) ∧
    (some (-40) : Option ℚ) ≠ none := by
  exact ⟨by with_unfolding_all decide, by simp⟩

/-- C6 (amended).  `required_cedears_for_target_usd 500 (25, 25) = 20`
lots, and an exit-leg quantity of 19 on a required side is rejected; but
quantities are accepted only when, in addition to the required lots being
available on the side to hit on each leg, all four book sides meet the
scaled minimum — `max(50, 2·lots)` on the peso leg and `max(20, 2·lots)`
on the dollar leg — so 20 lots on both required sides alone is still
rejected (see `liquidity_filter_rejects_twenty`); with the scaled minima
met (e.g. 40 on both dollar sides) it accepts. -/
theorem liquidity_filter_spec :
    (∀ (t : ℚ) (bd ad : Option ℚ) (side : String) (bq aq bqd aqd n : ℤ),
      required_cedears_for_target_usd t bd ad side = some n → 0 < n →
      (liquidity_filter t bd ad side bq aq bqd aqd = true ↔
        (max 50 (2 * n) ≤ bq ∧ max 50 (2 * n) ≤ aq ∧
         max 20 (2 * n) ≤ bqd ∧ max 20 (2 * n) ≤ aqd ∧
         (if side = "COMPRA" then n ≤ aq ∧ n ≤ bqd else n ≤ bq ∧ n ≤ aqd)))) ∧
    required_cedears_for_target_usd 500 (some 25) (some 25) ("COMPRA") = some 20 ∧
    liquidity_filter 500 (some 25) (some 25) ("COMPRA") 100 100 19 100 = false ∧
    liquidity_filter 500 (some 25) (some 25) ("COMPRA") 100 100 40 40 = true := by
  refine ⟨?_, by with_unfolding_all decide, by with_unfolding_all decide,
    by with_unfolding_all decide⟩
  intro t bd ad side bq aq bqd aqd n h hn
  have hn0 : ¬ (n = 0 ∨ n ≤ 0) := by push_neg; exact ⟨hn.ne', hn⟩
  simp only [liquidity_filter, h, min_qty_thresholds_for_target,
    is_executable_for_size, if_neg hn.ne', if_neg hn0]
  by_cases hs : side = "COMPRA" <;>
    simp only [hs, if_true, if_false, reduceIte] <;>
    split_ifs <;>
    simp_all [decide_eq_true_eq] <;>
    omega

set_option maxRecDepth 8000 in
/-- Witness for `liquidity_filter_spec`: with 20 required lots, books of
100/100 pesos and 40/40 dollars, the characterisation instantiates. -/
theorem liquidity_filter_spec_witness :
    liquidity_filter 500 (some 25) (some 25) ("COMPRA") 100 100 40 40 = true ↔
      ((50 : ℤ) ⊔ 2 * 20 ≤ 100 ∧ (50 : ℤ) ⊔ 2 * 20 ≤ 100 ∧
       (20 : ℤ) ⊔ 2 * 20 ≤ 40 ∧ (20 : ℤ) ⊔ 2 * 20 ≤ 40 ∧
       (if ("COMPRA" : String) = "COMPRA" then (20 : ℤ) ≤ 100 ∧ (20 : ℤ) ≤ 40
        else (20 : ℤ) ≤ 100 ∧ (20 : ℤ) ≤ 40)) :=
  liquidity_filter_spec.1 500 (some 25) (some 25) ("COMPRA") 100 100 40 40 20
    (by with_unfolding_all decide) (by norm_num)

/-- C6 counterexample.  Target 500 at exit price 25 needs 20 lots; the
claim accepts any book with at least 20 on both required sides, but with
exactly 20 on each dollar side (and ample peso depth) the filter rejects,
because the scaled minimum for the dollar leg is `max(20, 2·20) = 40`. -/
theorem liquidity_filter_rejects_twenty :
    required_cedears_for_target_usd 500 (some 25) (some 25) ("COMPRA") = some 20 ∧
    (20 : ℤ) ≤ 100 ∧ (20 : ℤ) ≤ 20 ∧
    liquidity_filter 500 (some 25) (some 25) ("COMPRA") 100 100 20 20 = false := by
  refine ⟨by with_unfolding_all decide, by norm_num, by norm_num,
    by with_unfolding_all decide⟩

/-- C3 (as stated).  With no stored state the dedup decision emits; with a
well-formed stored state (non-blank direction `D`, timestamp `T`, edge
`E`) it emits exactly when the direction changed, the cooldown elapsed
(`(t − T)/60 ≥ cooldown`), or the edge improved by at least the margin;
and on the spec's concrete example (stored BUY/1.00, margin 0.05,
cooldown unexpired) a new BUY at edge 1.02 one minute later is suppressed
while edge 1.06 emits. -/
theorem should_send_alert_iff :
    (∀ (cfg : Config) (state : StateMap) (ticker side : String) (e : ℚ)
        (now : PyDateTime),
      lookupState state (pyUpper ticker) = none →
      should_send_alert cfg state ticker side e now = true) ∧
    (∀ (cfg : Config) (state : StateMap) (ticker side : String) (e : ℚ)
        (now T : PyDateTime) (entry : StateEntry) (E : ℚ),
      lookupState state (pyUpper ticker) = some entry →
      pyUpper entry.last_side ≠ "" →
      entry.last_sent_at = some T →
      entry.last_edge_net = some E →
      (should_send_alert cfg state ticker side e now = true ↔
        (pyUpper side ≠ pyUpper entry.last_side ∨
         (now.totalSeconds - T.totalSeconds) / 60 ≥ cfg.alert_cooldown_min ∨
         e - E ≥ cfg.alert_edge_improve_usd))) ∧
    should_send_alert defaultConfig exampleState ("AAPL") ("BUY") (51/50) ⟨0, 60⟩
      = false ∧
    should_send_alert defaultConfig exampleState ("AAPL") ("BUY") (53/50) ⟨0, 60⟩
      = true := by
  refine ⟨?_, ?_, by with_unfolding_all decide, by with_unfolding_all decide⟩
  · intro cfg state ticker side e now h
    simp only [should_send_alert, h]
  · intro cfg state ticker side e now T entry E hlook hside hT hE
    simp only [should_send_alert, hlook, hT, hE]
    by_cases hdir : pyUpper side = pyUpper entry.last_side
    · rw [if_neg (by simp [hdir])]
      split_ifs <;> simp_all [hdir]
    · rw [if_pos ⟨hside, fun hc => hdir hc.symm⟩]
      simp [hdir]

set_option maxRecDepth 8000 in
/-- Witness for `should_send_alert_iff` on the stored AAPL state (BUY at
edge 1.00): the emit decision for a new BUY at 1.06 one minute later is
exactly the three-way disjunction, whose improvement disjunct holds. -/
theorem should_send_alert_iff_witness :
    should_send_alert defaultConfig exampleState ("AAPL") ("BUY") (53/50) ⟨0, 60⟩
      = true ↔
      (pyUpper ("BUY") ≠ pyUpper ("BUY") ∨
       ((PyDateTime.mk 0 60).totalSeconds - (PyDateTime.mk 0 0).totalSeconds) / 60
         ≥ defaultConfig.alert_cooldown_min ∨
       (53/50 : ℚ) - 1 ≥ defaultConfig.alert_edge_improve_usd) :=
  should_send_alert_iff.2.1 defaultConfig exampleState ("AAPL") ("BUY") (53/50)
    ⟨0, 60⟩ ⟨0, 0⟩ ⟨"BUY", some ⟨0, 0⟩, some 1, 2⟩ 1
    (by with_unfolding_all decide) (by with_unfolding_all decide) rfl rfl

/-- C10 (as stated).  A stored record whose timestamp is missing or did
not parse (`parse_iso` → `None`) makes the dedup decision emit outright;
and a record whose stored net edge is missing (`safe_float` → `None`)
emits even when the direction matches and the cooldown is unexpired:
corrupt or partial state never suppresses. -/
theorem corrupt_state_emits :
    (∀ (cfg : Config) (state : StateMap) (ticker side : String) (e : ℚ)
        (now : PyDateTime) (entry : StateEntry),
      lookupState state (pyUpper ticker) = some entry →
      entry.last_sent_at = none →
      should_send_alert cfg state ticker side e now = true) ∧
    (∀ (cfg : Config) (state : StateMap) (ticker side : String) (e : ℚ)
        (now T : PyDateTime) (entry : StateEntry),
      lookupState state (pyUpper ticker) = some entry →
      entry.last_sent_at = some T →
      (now.totalSeconds - T.totalSeconds) / 60 < cfg.alert_cooldown_min →
      entry.last_edge_net = none →
      should_send_alert cfg state ticker side e now = true) := by
  constructor
  · intro cfg state ticker side e now entry hlook hT
    simp only [should_send_alert, hlook, hT]
    split_ifs <;> rfl
  · intro cfg state ticker side e now T entry hlook hT _hcool hE
    simp only [should_send_alert, hlook, hT, hE]
    split_ifs <;> rfl

set_option maxRecDepth 8000 in
/-- Witness for `corrupt_state_emits`: a stored BUY record with a missing
edge, same direction and an unexpired cooldown still emits. -/
theorem corrupt_state_emits_witness :
    should_send_alert defaultConfig
      [("AAPL", ⟨"BUY", some ⟨0, 0⟩, none, 2⟩)] ("AAPL") ("BUY") 1 ⟨0, 60⟩
      = true :=
  corrupt_state_emits.2 defaultConfig
    [("AAPL", ⟨"BUY", some ⟨0, 0⟩, none, 2⟩)] ("AAPL") ("BUY") 1 ⟨0, 60⟩ ⟨0, 0⟩
    ⟨"BUY", some ⟨0, 0⟩, none, 2⟩ (by with_unfolding_all decide) rfl
    (by with_unfolding_all decide) rfl

set_option maxRecDepth 8000 in
/-- C2 (the code contradicts it).  In a world where GGAL passes every
filter — in-window clock, matching settlement, deep books, stable
underlying, 18% deviation, 0.86 USD net edge — the tick does not emit the
alert: the severity-classification call references the undefined name
`bid_qty_i` and the loop raises `NameError`, aborting the tick with no
rows written, no message sent and no state update. -/
theorem watchlist_alert_path_raises :
    runTick defaultConfig crashWorld =
      ⟨some (.nameError ("bid_qty_i")), ["AL30", "AL30D", "GGAL", "GGALD"],
        0, false, []⟩ := by
  with_unfolding_all decide

/-- C8 (as stated, guard enabled — the default).  A tick whose wall-clock
time falls outside every configured window is a complete no-op: no quote
fetched, no audit row, no notification, no state write, no exception. -/
theorem outside_window_noop :
    ∀ (cfg : Config) (w : World),
      cfg.window_guard = true →
      in_allowed_window cfg.windows w.now = false →
      runTick cfg w = noopOutcome := by
  intro cfg w hg hw
  simp [runTick, hg, hw]

set_option maxRecDepth 8000 in
/-- Witness for `outside_window_noop`: the default configuration at 09:00
(outside both the 11:00–13:00 and 16:00–17:00 windows). -/
theorem outside_window_noop_witness :
    runTick defaultConfig outsideWorld = noopOutcome :=
  outside_window_noop defaultConfig outsideWorld rfl
    (by with_unfolding_all decide)

/-- C7 (amended).  When `get_mep_ref` is falsy — the legs disagree with
the target settlement term, either leg is unavailable, either mark is
falsy, or the dollar-leg mark is negative — the tick stops right after
the two reference fetches: no instrument is evaluated or fetched, no
audit row is written, no notification is sent, no state is touched.  A
*negative peso-leg* mark, however, is not caught: it yields a negative
reference rate and the tick proceeds (see
`negative_peso_leg_tick_proceeds`). -/
theorem invalid_mep_skips_tick :
    ∀ (cfg : Config) (w : World),
      (cfg.window_guard = false ∨ in_allowed_window cfg.windows w.now = true) →
      w.hasCreds = true →
      (get_mep_ref w.quotes cfg.plazo_target = none ∨
       get_mep_ref w.quotes cfg.plazo_target = some 0) →
      runTick cfg w = ⟨none, ["AL30", "AL30D"], 0, false, []⟩ := by
  intro cfg w hwin hc hm
  have hcond : (cfg.window_guard && ! in_allowed_window cfg.windows w.now) = false := by
    rcases hwin with h | h <;> simp [h]
  rcases hm with h | h <;> simp [runTick, hcond, hc, h]

set_option maxRecDepth 8000 in
/-- Witness for `invalid_mep_skips_tick`: the AL30 peso leg unavailable
at 12:00 with credentials present. -/
theorem invalid_mep_skips_tick_witness :
    runTick defaultConfig mepNoneWorld = ⟨none, ["AL30", "AL30D"], 0, false, []⟩ :=
  invalid_mep_skips_tick defaultConfig mepNoneWorld
    (Or.inr (by with_unfolding_all decide)) rfl
    (Or.inl (by with_unfolding_all decide))

set_option maxRecDepth 8000 in
/-- C7 counterexample.  With the peso leg quoting a *negative* mark (−5)
and a valid dollar leg, the reference rate is `some (−5)` — not rejected —
and the tick goes on to evaluate and fetch the watch-list instrument
GGAL, contradicting "either leg non-positive ⇒ the whole tick is skipped
immediately". -/
theorem negative_peso_leg_tick_proceeds :
    (negLegWorld.quotes ("AL30")).map pick_mark_or_last = some (some (-5)) ∧
    get_mep_ref negLegWorld.quotes defaultConfig.plazo_target = some (-5) ∧
    "GGAL" ∈ (runTick defaultConfig negLegWorld).fetched := by
  refine ⟨?_, ?_, ?_⟩ <;> with_unfolding_all decide

set_option maxHeartbeats 1000000 in
/-- After the stability gate, the loop body never skips with the
stability reason: all its `continue` sites carry other reasons, and the
fully-passing path raises. -/
theorem postStability_ne_stability (cfg : Config) (mep : ℚ) (d : PreData) :
    postStability cfg mep d ≠ .skip .stability := by
  intro hcon
  unfold postStability at hcon
  dsimp only at hcon
  repeat' split at hcon
  all_goals simp at hcon

/-- C9 (as stated).  An instrument that reaches the stability check is
excluded from the rest of the tick exactly when the underlying's absolute
5-minute change strictly exceeds the threshold: above it, the loop body
stops at the stability skip (before edges, classification or alerting);
at or below it, the stability filter never fires.  Concretely, with the
default 0.25% threshold a 0.30% move is excluded and a 0.20% move is
not. -/
theorem stability_filter_spec :
    (∀ (cfg : Config) (w : World) (mep : ℚ) (row : WatchRow) (d : PreData),
      (fetchAndFilter cfg w row).2 = .ok d →
      ((|d.adr_5m| > cfg.adr_max_abs_5m_pct →
        (processInstrument cfg w mep row).2 = .skip .stability) ∧
       (|d.adr_5m| ≤ cfg.adr_max_abs_5m_pct →
        (processInstrument cfg w mep row).2 ≠ .skip .stability))) ∧
    (processInstrument defaultConfig stabWorldA 1000 ggalRow).2 = .skip .stability ∧
    (processInstrument defaultConfig stabWorldB 1000 ggalRow).2 ≠ .skip .stability := by
  refine ⟨?_, by with_unfolding_all decide, by with_unfolding_all decide⟩
  intro cfg w mep row d h
  constructor
  · intro hgt
    simp only [processInstrument, h, if_pos hgt]
  · intro hle
    simp only [processInstrument, h, if_neg (not_lt.2 hle)]
    exact postStability_ne_stability cfg mep d

set_option maxRecDepth 8000 in
/-- Witness for `stability_filter_spec`: in the 0.30%-move world the
pre-stability stage succeeds and the theorem yields the stability skip. -/
theorem stability_filter_spec_witness :
    (processInstrument defaultConfig stabWorldA 1000 ggalRow).2
      = .skip .stability :=
  (stability_filter_spec.1 defaultConfig stabWorldA 1000 ggalRow
    ⟨"GGAL", 10, 4000, 4100, 1000, 1000, some 60000000, 99/20, 101/20,
      1000, 1000, 50, 3/10⟩
    (by with_unfolding_all rfl)).1 (by with_unfolding_all decide)
/-! Dict lemmas -/

theorem lookup_dictInsert_self (k : String) (v : StateEntry) :
    ∀ m : StateMap, lookupState (dictInsert m k v) k = some v := by
  intro m
  induction m with
  | nil => simp [dictInsert, lookupState]
  | cons hd tl ih =>
    by_cases h1 : hd.1 = k
    · simp [dictInsert, lookupState, h1]
    · by_cases h2 : tl.any (fun p => p.1 = k) <;>
        simp [dictInsert, lookupState, h1, h2] at ih ⊢ <;> exact ih

theorem find?_overwrite (k t : String) (v : StateEntry) (h : t ≠ k) :
    ∀ m : StateMap,
      List.find? (fun p => p.1 = t) (m.map fun p => if p.1 = k then (k, v) else p)
        = List.find? (fun p => p.1 = t) m := by
  intro m
  induction m with
  | nil => rfl
  | cons hd tl ih =>
    by_cases h1 : hd.1 = k
    · have h2 : ¬ hd.1 = t := fun hc => h (hc.symm.trans h1)
      simp [h1, h2, Ne.symm h, ih]
    · by_cases h2 : hd.1 = t <;> simp [h1, h2, ih, h]

theorem find?_append_single (k t : String) (v : StateEntry) (h : t ≠ k) :
    ∀ m : StateMap,
      List.find? (fun p => p.1 = t) (m ++ [(k, v)])
        = List.find? (fun p => p.1 = t) m := by
  intro m
  induction m with
  | nil => simp [Ne.symm h]
  | cons hd tl ih =>
    by_cases h1 : hd.1 = t <;> simp [h1, ih]

theorem lookup_dictInsert_ne (k t : String) (v : StateEntry) (h : t ≠ k)
    (m : StateMap) : lookupState (dictInsert m k v) t = lookupState m t := by
  unfold dictInsert
  by_cases h2 : m.any (fun p => p.1 = k) <;>
    simp [lookupState, h2, find?_overwrite k t v h m, find?_append_single k t v h m]

/-! loadAux / findRow lemmas -/

theorem lookup_loadAux_not_mem (t : String) :
    ∀ (rows : List StateRow) (idx : ℕ) (acc : StateMap),
      (∀ r ∈ rows, normT r ≠ t) →
      lookupState (loadAux idx rows acc) t = lookupState acc t := by
  intro rows
  induction rows with
  | nil => intro idx acc _; rfl
  | cons r rs ih =>
    intro idx acc h
    have ht := h r (List.mem_cons_self r rs)
    have hrest : ∀ x ∈ rs, normT x ≠ t := fun x hx => h x (List.mem_cons_of_mem r hx)
    show lookupState (if normT r = "" then loadAux (idx + 1) rs acc
      else loadAux (idx + 1) rs (dictInsert acc (normT r) (entryOfRow idx r))) t = _
    by_cases hr : normT r = ""
    · rw [if_pos hr]; exact ih (idx + 1) acc hrest
    · rw [if_neg hr, ih (idx + 1) _ hrest]
      exact lookup_dictInsert_ne _ _ _ (Ne.symm ht) acc

theorem findRowAux_shift (t : String) :
    ∀ (l : List StateRow) (idx : ℕ),
      findRowAux t idx l = (findRow l t).map (fun p => (p.1 + idx, p.2)) := by
  intro l
  induction l with
  | nil => intro idx; rfl
  | cons r rs ih =>
    intro idx
    show (if normT r = t then some (idx, r) else findRowAux t (idx + 1) rs) = _
    unfold findRow
    by_cases hr : normT r = t
    · simp [findRowAux, hr]
    · show _ = ((if normT r = t then some (0, r) else findRowAux t 1 rs).map _)
      rw [if_neg hr, if_neg hr, ih (idx + 1), ih 1]
      cases findRow rs t with
      | none => rfl
      | some p => simp; omega

theorem findRow_cons (r : StateRow) (rs : List StateRow) (t : String) :
    findRow (r :: rs) t =
      if normT r = t then some (0, r)
      else (findRow rs t).map (fun p => (p.1 + 1, p.2)) := by
  show (if normT r = t then some (0, r) else findRowAux t 1 rs) = _
  by_cases hr : normT r = t <;> simp [hr, findRowAux_shift t rs 1]

theorem lookup_loadAux_char (t : String) (ht : t ≠ "") :
    ∀ (rows : List StateRow) (idx : ℕ) (acc : StateMap),
      ((rows.map normT).Nodup) →
      lookupState (loadAux idx rows acc) t =
        (match findRowAux t idx rows with
         | some p => some (entryOfRow p.1 p.2)
         | none => lookupState acc t) := by
  intro rows
  induction rows with
  | nil => intro idx acc _; rfl
  | cons r rs ih =>
    intro idx acc hnd
    rw [List.map_cons, List.nodup_cons] at hnd
    obtain ⟨hhead, hnd'⟩ := hnd
    show lookupState (if normT r = "" then loadAux (idx + 1) rs acc
      else loadAux (idx + 1) rs (dictInsert acc (normT r) (entryOfRow idx r))) t =
      (match (if normT r = t then some (idx, r) else findRowAux t (idx + 1) rs) with
       | some p => some (entryOfRow p.1 p.2)
       | none => lookupState acc t)
    by_cases hr : normT r = t
    · have hr0 : ¬ normT r = "" := by rw [hr]; exact ht
      have hne : ∀ x ∈ rs, normT x ≠ t := by
        intro x hx hc
        exact hhead (hr.symm ▸ hc ▸ List.mem_map_of_mem normT hx)
      rw [if_neg hr0, if_pos hr, lookup_loadAux_not_mem t rs (idx + 1) _ hne, hr,
        lookup_dictInsert_self]
    · rw [if_neg hr]
      by_cases hr0 : normT r = ""
      · rw [if_pos hr0]
        exact ih (idx + 1) acc hnd'
      · rw [if_neg hr0, ih (idx + 1) _ hnd']
        cases h : findRowAux t (idx + 1) rs with
        | none => exact lookup_dictInsert_ne _ _ _ (Ne.symm hr) acc
        | some p => rfl

theorem lookup_load_char (rows : List StateRow) (t : String) (ht : t ≠ "")
    (hnd : (rows.map normT).Nodup) :
    lookupState (load_alert_state rows) t =
      (findRow rows t).map (fun p => entryOfRow (p.1 + 2) p.2) := by
  show lookupState (loadAux 2 rows []) t = _
  rw [lookup_loadAux_char t ht rows 2 [] hnd, findRowAux_shift t rows 2]
  cases h : findRow rows t with
  | none => rfl
  | some p => rfl

/-! findRow structural lemmas -/

theorem findRow_none_iff (t : String) :
    ∀ l : List StateRow, findRow l t = none ↔ ∀ r ∈ l, normT r ≠ t := by
  intro l
  induction l with
  | nil => simp [findRow, findRowAux]
  | cons r rs ih =>
    rw [findRow_cons]
    by_cases hr : normT r = t
    · simp [hr]
    · simp [hr, ih]

theorem findRow_get (t : String) :
    ∀ (l : List StateRow) (p : ℕ × StateRow), findRow l t = some p →
      l.get? p.1 = some p.2 ∧ normT p.2 = t := by
  intro l
  induction l with
  | nil => intro p h; exact absurd h (by simp [findRow, findRowAux])
  | cons r rs ih =>
    intro p h
    rw [findRow_cons] at h
    by_cases hr : normT r = t
    · rw [if_pos hr] at h
      cases h
      exact ⟨rfl, hr⟩
    · rw [if_neg hr] at h
      cases hq : findRow rs t with
      | none => rw [hq] at h; cases h
      | some q =>
        rw [hq] at h
        cases h
        obtain ⟨h1, h2⟩ := ih q hq
        exact ⟨h1, h2⟩

theorem findRow_set_self (t : String) (r' : StateRow) (hr' : normT r' = t) :
    ∀ (l : List StateRow) (p : ℕ × StateRow), findRow l t = some p →
      findRow (l.set p.1 r') t = some (p.1, r') := by
  intro l
  induction l with
  | nil => intro p h; exact absurd h (by simp [findRow, findRowAux])
  | cons hd tl ih =>
    intro p h
    rw [findRow_cons] at h
    by_cases hh : normT hd = t
    · rw [if_pos hh] at h
      cases h
      rw [List.set_cons_zero, findRow_cons, if_pos hr']
    · rw [if_neg hh] at h
      cases hq : findRow tl t with
      | none => rw [hq] at h; cases h
      | some q =>
        rw [hq] at h
        cases h
        rw [List.set_cons_succ, findRow_cons, if_neg hh, ih q hq]
        rfl

theorem findRow_set_other (t : String) (r' : StateRow) (h2 : normT r' ≠ t) :
    ∀ (l : List StateRow) (i : ℕ) (old : StateRow),
      l.get? i = some old → normT old ≠ t →
      findRow (l.set i r') t = findRow l t := by
  intro l
  induction l with
  | nil => intro i old h _; exact absurd h (by simp)
  | cons hd tl ih =>
    intro i old hget h1
    cases i with
    | zero =>
      rw [List.get?_cons_zero] at hget
      cases hget
      rw [List.set_cons_zero, findRow_cons, findRow_cons, if_neg h1, if_neg h2]
    | succ n =>
      rw [List.get?_cons_succ] at hget
      rw [List.set_cons_succ, findRow_cons, findRow_cons, ih n old hget h1]

theorem findRow_append_some (t : String) (l2 : List StateRow) :
    ∀ (l : List StateRow) (p : ℕ × StateRow), findRow l t = some p →
      findRow (l ++ l2) t = some p := by
  intro l
  induction l with
  | nil => intro p h; exact absurd h (by simp [findRow, findRowAux])
  | cons hd tl ih =>
    intro p h
    rw [findRow_cons] at h
    rw [List.cons_append, findRow_cons]
    by_cases hh : normT hd = t
    · rw [if_pos hh] at h ⊢; exact h
    · rw [if_neg hh] at h ⊢
      cases hq : findRow tl t with
      | none => rw [hq] at h; cases h
      | some q => rw [hq] at h; rw [ih q hq]; exact h

theorem findRow_append_none (t : String) (r' : StateRow) :
    ∀ l : List StateRow, findRow l t = none →
      findRow (l ++ [r']) t =
        if normT r' = t then some (l.length, r') else none := by
  intro l
  induction l with
  | nil =>
    intro _
    rw [List.nil_append, findRow_cons]
    by_cases hr : normT r' = t <;> simp [hr, findRow, findRowAux]
  | cons hd tl ih =>
    intro h
    rw [findRow_cons] at h
    by_cases hh : normT hd = t
    · rw [if_pos hh] at h; cases h
    · rw [if_neg hh] at h
      have htl : findRow tl t = none := by
        cases hq : findRow tl t with
        | none => rfl
        | some q => rw [hq] at h; cases h
      rw [List.cons_append, findRow_cons, if_neg hh, ih htl]
      by_cases hr : normT r' = t <;> simp [hr]

/-! List utility lemmas for the commit protocol -/

theorem find?_unique_of_nodup {α : Type} (f : α → String) (t : String) :
    ∀ (l : List α) (a : α), (l.map f).Nodup → a ∈ l → f a = t →
      l.find? (fun x => f x = t) = some a := by
  intro l
  induction l with
  | nil => intro a _ h; cases h
  | cons hd tl ih =>
    intro a hnd hmem hfa
    rw [List.map_cons, List.nodup_cons] at hnd
    obtain ⟨hhead, hnd'⟩ := hnd
    by_cases hh : f hd = t
    · have ha : a = hd := by
        rcases List.mem_cons.mp hmem with h | h
        · exact h
        · exact absurd (show f hd ∈ tl.map f from
            (hh.trans hfa.symm) ▸ List.mem_map_of_mem f h) hhead
      subst ha
      exact List.find?_cons_of_pos _ (by simp [hh])
    · have ha : a ∈ tl := by
        rcases List.mem_cons.mp hmem with h | h
        · exact absurd (h ▸ hfa) hh
        · exact h
      rw [List.find?_cons_of_neg _ (by simp [hh])]
      exact ih a hnd' ha hfa

theorem filter_ticker_length_le_one {α : Type} (f : α → String) (t : String) :
    ∀ l : List α, (l.map f).Nodup →
      (l.filter (fun x => f x = t)).length ≤ 1 := by
  intro l
  induction l with
  | nil => intro _; simp
  | cons hd tl ih =>
    intro hnd
    rw [List.map_cons, List.nodup_cons] at hnd
    obtain ⟨hhead, hnd'⟩ := hnd
    by_cases hh : f hd = t
    · rw [List.filter_cons_of_pos (by simp [hh])]
      have hnil : tl.filter (fun x => f x = t) = [] := by
        rw [List.filter_eq_nil_iff]
        intro x hx
        simp only [decide_eq_true_eq]
        intro hc
        exact hhead ((hh.trans hc.symm) ▸ List.mem_map_of_mem f hx)
      rw [hnil]
      simp
    · rw [List.filter_cons_of_neg (by simp [hh])]
      exact ih hnd'

/-! The fold of `upsert_alert_state` calls over the pending updates -/

theorem foldUpsert_char (state : StateMap) (now : PyDateTime) :
    ∀ (pending : List Qual) (cur : List StateRow),
      (∀ q ∈ pending, pyUpper q.ticker ≠ "" ∧
        normT (qualRow now q) = pyUpper q.ticker) →
      ((pending.map fun q => pyUpper q.ticker).Nodup) →
      (∀ q ∈ pending,
        (∀ e, lookupState state (pyUpper q.ticker) = some e →
          ∃ r, findRow cur (pyUpper q.ticker) = some (e.row_index - 2, r)) ∧
        (lookupState state (pyUpper q.ticker) = none →
          findRow cur (pyUpper q.ticker) = none)) →
      ∀ t : String,
        rowContent (findRow (pending.foldl (fun sh q =>
          upsert_alert_state state sh q.ticker q.side q.edge now) cur) t) =
          (match pending.find? (fun q => pyUpper q.ticker = t) with
           | some q => some (pyUpper q.side, some now.truncMicro, some q.edge)
           | none => rowContent (findRow cur t)) := by
  intro pending
  induction pending with
  | nil => intro cur _ _ _ t; rfl
  | cons q0 rest ih =>
    intro cur hform hnd hpos t
    rw [List.map_cons, List.nodup_cons] at hnd
    obtain ⟨hhead, hnd'⟩ := hnd
    have hform0 := hform q0 (List.mem_cons_self q0 rest)
    have hpos0 := hpos q0 (List.mem_cons_self q0 rest)
    set tq := pyUpper q0.ticker with htq_def
    set cur' := upsert_alert_state state cur q0.ticker q0.side q0.edge now with hcur'
    have key : (∃ i, findRow cur' tq = some (i, qualRow now q0)) ∧
        (∀ u, u ≠ tq → findRow cur' u = findRow cur u) := by
      cases hstate : lookupState state tq with
      | some e =>
        have hcur2 : cur' = cur.set (e.row_index - 2) (qualRow now q0) := by
          rw [hcur']
          unfold upsert_alert_state
          dsimp only
          rw [← htq_def, hstate]
          rfl
        obtain ⟨r, hfr⟩ := hpos0.1 e hstate
        have hget := findRow_get tq cur (e.row_index - 2, r) hfr
        constructor
        · refine ⟨e.row_index - 2, ?_⟩
          rw [hcur2]
          exact findRow_set_self tq (qualRow now q0) hform0.2 cur (e.row_index - 2, r) hfr
        · intro u hu
          rw [hcur2]
          exact findRow_set_other u (qualRow now q0)
            (fun hc => hu ((hform0.2.symm.trans hc).symm)) cur (e.row_index - 2) r
            hget.1 (fun hc => hu ((hget.2.symm.trans hc).symm))
      | none =>
        have hcur2 : cur' = cur ++ [qualRow now q0] := by
          rw [hcur']
          unfold upsert_alert_state
          dsimp only
          rw [← htq_def, hstate]
          rfl
        have hnone := hpos0.2 hstate
        constructor
        · refine ⟨cur.length, ?_⟩
          rw [hcur2, findRow_append_none tq (qualRow now q0) cur hnone, if_pos hform0.2]
        · intro u hu
          rw [hcur2]
          cases hq : findRow cur u with
          | some p => exact findRow_append_some u [qualRow now q0] cur p hq
          | none =>
            rw [findRow_append_none u (qualRow now q0) cur hq,
              if_neg (fun hc => hu ((hform0.2.symm.trans hc).symm))]
    have hframe := key.2
    have hih := ih cur'
      (fun q hq => hform q (List.mem_cons_of_mem q0 hq))
      hnd'
      (by
        intro q hq
        have hne : pyUpper q.ticker ≠ tq := by
          intro hc
          exact hhead (hc ▸ List.mem_map_of_mem (fun q => pyUpper q.ticker) hq)
        constructor
        · intro e he
          obtain ⟨r, hr⟩ := (hpos q (List.mem_cons_of_mem q0 hq)).1 e he
          exact ⟨r, (hframe _ hne).trans hr⟩
        · intro he
          exact (hframe _ hne).trans ((hpos q (List.mem_cons_of_mem q0 hq)).2 he))
      t
    rw [List.foldl_cons, hih]
    cases hfind : rest.find? (fun q => pyUpper q.ticker = t) with
    | some q =>
      have hqmem := List.mem_of_find?_eq_some hfind
      have hqt : pyUpper q.ticker = t := by
        have := List.find?_some hfind
        simpa using this
      have hne : ¬ (tq = t) := by
        intro hc
        exact hhead ((hc.trans hqt.symm) ▸
          List.mem_map_of_mem (fun q => pyUpper q.ticker) hqmem)
      rw [List.find?_cons_of_neg _ (by simpa using hne), hfind]
    | none =>
      by_cases htq : tq = t
      · rw [List.find?_cons_of_pos _ (by simpa using htq)]
        obtain ⟨i, hi⟩ := key.1
        rw [htq] at hi
        rw [hi]
        rfl
      · rw [List.find?_cons_of_neg _ (by simpa using htq), hfind,
          hframe t (fun hc => htq hc.symm)]

/-- C5 (as stated).  Per tick, the alert-state table is written through
`upsert_alert_state` exactly once per opportunity that passes the dedup
decision and not at all for suppressed ones: the write list is precisely
the emitted opportunities' `(ticker, direction, timestamp, edge)` tuples
(timestamp truncated to whole seconds per `replace(microsecond=0)`); with
unique tickers each instrument's row is touched at most once; after the
upserts the stored record of an emitted instrument is exactly the new
tuple, and the record of every other instrument — suppressed or absent —
is unchanged. -/
theorem alert_state_commit_spec :
    ∀ (cfg : Config) (orig : List StateRow) (now : PyDateTime) (quals : List Qual),
      ((orig.map normT).Nodup) →
      ((quals.map fun q => pyUpper q.ticker).Nodup) →
      (∀ q ∈ quals, pyUpper q.ticker ≠ "" ∧
        normT (qualRow now q) = pyUpper q.ticker) →
      (commitOps cfg (load_alert_state orig) now quals =
        (quals.filter (emitQ cfg (load_alert_state orig) now)).map (upsertOp now)) ∧
      (∀ t, ((commitOps cfg (load_alert_state orig) now quals).filter
        (fun o => o.ticker = t)).length ≤ 1) ∧
      (∀ q ∈ quals, emitQ cfg (load_alert_state orig) now q = true →
        rowContent (findRow (commitSheet cfg orig now quals) (pyUpper q.ticker)) =
          some (pyUpper q.side, some now.truncMicro, some q.edge)) ∧
      (∀ t, t ∉ (quals.filter (emitQ cfg (load_alert_state orig) now)).map
        (fun q => pyUpper q.ticker) →
        rowContent (findRow (commitSheet cfg orig now quals) t) =
          rowContent (findRow orig t)) := by
  intro cfg orig now quals hOrig hQ hform
  have hOps : commitOps cfg (load_alert_state orig) now quals =
      (quals.filter (emitQ cfg (load_alert_state orig) now)).map (upsertOp now) := by
    unfold commitOps
    cases h : (quals.filter (emitQ cfg (load_alert_state orig) now)).isEmpty
    · simp [h]
    · simp [h, List.isEmpty_iff.mp h]
  have hPendSub : (quals.filter (emitQ cfg (load_alert_state orig) now)).Sublist quals :=
    List.filter_sublist quals
  have hPendNd : ((quals.filter (emitQ cfg (load_alert_state orig) now)).map
      fun q => pyUpper q.ticker).Nodup :=
    (hPendSub.map fun q => pyUpper q.ticker).nodup hQ
  have hformP : ∀ q ∈ quals.filter (emitQ cfg (load_alert_state orig) now),
      pyUpper q.ticker ≠ "" ∧ normT (qualRow now q) = pyUpper q.ticker :=
    fun q hq => hform q (List.mem_of_mem_filter hq)
  have hposInit : ∀ q ∈ quals.filter (emitQ cfg (load_alert_state orig) now),
      (∀ e, lookupState (load_alert_state orig) (pyUpper q.ticker) = some e →
        ∃ r, findRow orig (pyUpper q.ticker) = some (e.row_index - 2, r)) ∧
      (lookupState (load_alert_state orig) (pyUpper q.ticker) = none →
        findRow orig (pyUpper q.ticker) = none) := by
    intro q hq
    have hne := (hformP q hq).1
    rw [lookup_load_char orig (pyUpper q.ticker) hne hOrig]
    constructor
    · intro e he
      cases hfr : findRow orig (pyUpper q.ticker) with
      | none => rw [hfr] at he; cases he
      | some p =>
        rw [hfr] at he
        simp only [Option.map_some', Option.some.injEq] at he
        refine ⟨p.2, ?_⟩
        rw [← he]
        simp [entryOfRow]
    · intro he
      cases hfr : findRow orig (pyUpper q.ticker) with
      | none => rfl
      | some p => rw [hfr] at he; cases he
  have hSheet : commitSheet cfg orig now quals =
      (quals.filter (emitQ cfg (load_alert_state orig) now)).foldl
        (fun sh q => upsert_alert_state (load_alert_state orig) sh
          q.ticker q.side q.edge now) orig := rfl
  have hfold := foldUpsert_char (load_alert_state orig) now
    (quals.filter (emitQ cfg (load_alert_state orig) now)) orig
    hformP hPendNd hposInit
  refine ⟨hOps, ?_, ?_, ?_⟩
  · intro t
    rw [hOps, List.filter_map, List.length_map]
    exact filter_ticker_length_le_one (fun x : Qual => pyUpper x.ticker) t _ hPendNd
  · intro q hq hemit
    have hqmem : q ∈ quals.filter (emitQ cfg (load_alert_state orig) now) :=
      List.mem_filter.mpr ⟨hq, hemit⟩
    rw [hSheet, hfold (pyUpper q.ticker),
      find?_unique_of_nodup (fun x : Qual => pyUpper x.ticker) (pyUpper q.ticker) _ q
        hPendNd hqmem rfl]
  · intro t ht
    have hnone : (quals.filter (emitQ cfg (load_alert_state orig) now)).find?
        (fun q => pyUpper q.ticker = t) = none := by
      rw [List.find?_eq_none]
      intro x hx
      simp only [decide_eq_true_eq]
      intro hc
      exact ht (hc ▸ List.mem_map_of_mem (fun q => pyUpper q.ticker) hx)
    rw [hSheet, hfold t, hnone]

set_option maxRecDepth 8000 in
/-- Witness for `alert_state_commit_spec`: the stored AAPL row (BUY,
edge 1.00) is overwritten — via its recorded row index — with exactly the
emitted tuple (BUY, the truncated tick timestamp, edge 1.06). -/
theorem alert_state_commit_spec_witness :
    rowContent (findRow (commitSheet defaultConfig exampleSheet ⟨0, 60⟩
        [exampleQual]) (pyUpper ("AAPL"))) =
      some (pyUpper ("BUY"), some (PyDateTime.mk 0 60).truncMicro,
        some (53/50)) :=
  (alert_state_commit_spec defaultConfig exampleSheet ⟨0, 60⟩ [exampleQual]
    (by with_unfolding_all decide) (by with_unfolding_all decide)
    (by with_unfolding_all decide)).2.2.1 exampleQual
    (List.mem_singleton.mpr rfl) (by with_unfolding_all decide)
